import Mathlib

set_option maxRecDepth 40000

/-! Verification development for the FLAMEGPU2 device runtime core:
variable binding accessors (DeviceAPI.h), array messaging (messaging/Array.h)
and the device error reporter (FGPUDeviceException_device.h).
Machine unsigned arithmetic is modelled over Nat/Int with explicit wrap
where the code can overflow. -/

/-- Maximum value of a 32-bit unsigned int (`UINT_MAX`), used as the wrap cap of
CUDA `atomicInc` in `DeviceException::getErrorCount` and `AgentOut::genID`. -/
def UINT_MAX : Nat := 4294967295

/-- `DeviceExceptionBuffer::MAX_ARGS`. -/
def MAX_ARGS : Nat := 20

/-- `DeviceExceptionBuffer::ARG_BUFF_LEN`. -/
def ARG_BUFF_LEN : Nat := 4096

/-- `DeviceExceptionBuffer::FORMAT_BUFF_LEN`. -/
def FORMAT_BUFF_LEN : Nat := 4096

/-- `DeviceExceptionBuffer::FILE_BUFF_LEN`, the declared capacity of
`DeviceExceptionBuffer::file_path`. -/
def FILE_BUFF_LEN : Nat := 1024

/-- Modelled from the spec: the CURVE variable binding table
(`flamegpu/runtime/cuRVE/curve.h`, not under src/) maps a namespace hash and a
variable name to a device buffer; a thread's logical index addresses one cell.
We model the whole table as a total map from (hash, name, index) to a value. -/
def CurveStore (V : Type) : Type := Nat → List Char → Nat → V

/-- Modelled from the spec: array-typed bindings additionally take an element
index inside the per-thread cell. -/
def CurveArrStore (V : Type) : Type := Nat → List Char → Nat → Nat → V

/-- Modelled from the spec: `Curve::setVariable<T>(name, hash, value, index)`
writes `value` into the cell of the named buffer addressed by `index`. -/
def Curve.setVariable {V : Type} (s : CurveStore V) (name : List Char) (h : Nat) (v : V) (idx : Nat) : CurveStore V :=
  fun h2 n2 i2 => if h2 = h ∧ n2 = name ∧ i2 = idx then v else s h2 n2 i2

/-- Modelled from the spec: `Curve::getVariable<T>(name, hash, index)` reads the
cell of the named buffer addressed by `index`. -/
def Curve.getVariable {V : Type} (s : CurveStore V) (name : List Char) (h : Nat) (idx : Nat) : V :=
  s h name idx

/-- Modelled from the spec: `Curve::setAgentVariable<T>` (same store semantics as
`Curve::setVariable`, agent-state namespace). -/
def Curve.setAgentVariable {V : Type} (s : CurveStore V) (name : List Char) (h : Nat) (v : V) (idx : Nat) : CurveStore V :=
  fun h2 n2 i2 => if h2 = h ∧ n2 = name ∧ i2 = idx then v else s h2 n2 i2

/-- Modelled from the spec: `Curve::getAgentVariable<T>`. -/
def Curve.getAgentVariable {V : Type} (s : CurveStore V) (name : List Char) (h : Nat) (idx : Nat) : V :=
  s h name idx

/-- Modelled from the spec: `Curve::setNewAgentVariable<T>` (new-agent output
namespace, same store semantics). -/
def Curve.setNewAgentVariable {V : Type} (s : CurveStore V) (name : List Char) (h : Nat) (v : V) (idx : Nat) : CurveStore V :=
  fun h2 n2 i2 => if h2 = h ∧ n2 = name ∧ i2 = idx then v else s h2 n2 i2

/-- Modelled from the spec: `Curve::setAgentArrayVariable<T, N>` writes an
element of an array variable; the element index is bounds-checked (out of
bounds is a reportable error, returned as the Bool flag, and no write). -/
def Curve.setAgentArrayVariable {V : Type} (N : Nat) (s : CurveArrStore V) (name : List Char) (h : Nat) (v : V) (idx ai : Nat) : CurveArrStore V × Bool :=
  if ai < N then
    (fun h2 n2 i2 a2 => if h2 = h ∧ n2 = name ∧ i2 = idx ∧ a2 = ai then v else s h2 n2 i2 a2, false)
  else (s, true)

/-- Modelled from the spec: `Curve::getAgentArrayVariable<T, N>` reads an
element of an array variable with the same bounds check. -/
def Curve.getAgentArrayVariable {V : Type} [Zero V] (N : Nat) (s : CurveArrStore V) (name : List Char) (h : Nat) (idx ai : Nat) : V × Bool :=
  if ai < N then (s h name idx ai, false) else (0, true)

/-- Modelled from the spec: `Curve::setNewAgentArrayVariable<T, N>` (new-agent
output namespace, same semantics as `Curve::setAgentArrayVariable`). -/
def Curve.setNewAgentArrayVariable {V : Type} (N : Nat) (s : CurveArrStore V) (name : List Char) (h : Nat) (v : V) (idx ai : Nat) : CurveArrStore V × Bool :=
  if ai < N then
    (fun h2 n2 i2 a2 => if h2 = h ∧ n2 = name ∧ i2 = idx ∧ a2 = ai then v else s h2 n2 i2 a2, false)
  else (s, true)

/-- CUDA launch coordinates of one thread (1-D launch, as asserted by
`ReadOnlyDeviceAPI::getThreadIndex`). -/
structure ThreadCtx where
  blockDimX : Nat
  blockIdxX : Nat
  threadIdxX : Nat

/-- The thread's logical index, `blockDim.x * blockIdx.x + threadIdx.x`, as
computed in `DeviceAPI.h`. -/
def ThreadCtx.index (t : ThreadCtx) : Nat := t.blockDimX * t.blockIdxX + t.threadIdxX

/-- `ReadOnlyDeviceAPI::getVariable<T>(name)`: reads the named agent variable at
the calling thread's logical index. -/
def ReadOnlyDeviceAPI.getVariable {V : Type} (agent_func_name_hash : Nat) (t : ThreadCtx) (s : CurveStore V) (name : List Char) : V :=
  Curve.getAgentVariable s name agent_func_name_hash t.index

/-- `DeviceAPI::setVariable<T>(name, value)`: silently rejects names whose first
character is the reserved character, else writes the named agent variable at the
calling thread's logical index. -/
def DeviceAPI.setVariable {V : Type} (agent_func_name_hash : Nat) (t : ThreadCtx) (s : CurveStore V) (name : List Char) (v : V) : CurveStore V :=
  if name.head? = some '_' then s
  else Curve.setAgentVariable s name agent_func_name_hash v t.index

/-- `ReadOnlyDeviceAPI::getVariable<T, N>(name, array_index)`: array-element
read at the calling thread's logical index. -/
def ReadOnlyDeviceAPI.getArrayVariable {V : Type} [Zero V] (N : Nat) (agent_func_name_hash : Nat) (t : ThreadCtx) (s : CurveArrStore V) (name : List Char) (ai : Nat) : V × Bool :=
  Curve.getAgentArrayVariable N s name agent_func_name_hash t.index ai

/-- `DeviceAPI::setVariable<T, N>(name, array_index, value)`: array-element
write with the same silent reserved-name rejection. -/
def DeviceAPI.setArrayVariable {V : Type} (N : Nat) (agent_func_name_hash : Nat) (t : ThreadCtx) (s : CurveArrStore V) (name : List Char) (ai : Nat) (v : V) : CurveArrStore V × Bool :=
  if name.head? = some '_' then (s, false)
  else Curve.setAgentArrayVariable N s name agent_func_name_hash v t.index ai

/-- `MsgArray::Out::setVariable<T>(name, value)`: silently rejects reserved
names, else writes the message field in the thread's own candidate slot. -/
def MsgArray.Out.setVariable {V : Type} (combined_hash : Nat) (t : ThreadCtx) (s : CurveStore V) (name : List Char) (v : V) : CurveStore V :=
  if name.head? = some '_' then s
  else Curve.setVariable s name combined_hash v t.index

/-- `MsgArray::In`: combined hash plus the message list length from metadata. -/
structure MsgArrayIn where
  combined_hash : Nat
  length : Nat

/-- `MsgArray::Message`: a handle bound to one index of the message list. -/
structure MsgArrayMessage where
  index : Nat

/-- `MsgArray::In::at(index)`: reports an out-of-bounds error (the Bool flag is
the DTHROW) when `index >= length`, and returns a handle bound to `index`
either way. -/
def MsgArray.In.atMsg (inp : MsgArrayIn) (index : Nat) : Bool × MsgArrayMessage :=
  (decide (index ≥ inp.length), { index := index })

/-- `MsgArray::Message::getVariable<T>(name)`: reads the field through CURVE
when the bound index is within the list length, else returns `static_cast<T>(0)`
without reporting an error (the body contains no DTHROW). -/
def MsgArray.Message.getVariable {V : Type} [Zero V] (inp : MsgArrayIn) (s : CurveStore V) (m : MsgArrayMessage) (name : List Char) : V :=
  if m.index < inp.length then Curve.getVariable s name inp.combined_hash m.index
  else 0

/-- `MsgArray::In::size()`. -/
def MsgArray.In.size (inp : MsgArrayIn) : Nat := inp.length

/-- `MsgArray::In::Filter`: search origin `loc`, search `radius`, list `length`
and the combined CURVE hash. -/
structure MsgFilter where
  loc : Nat
  radius : Nat
  length : Nat
  combined_hash : Nat

/-- `MsgArray::In::operator()(x, radius)`: reports an invalid-radius error (the
Bool flag is the DTHROW) when `radius == 0 || radius > length`, and returns the
`MsgFilter` either way. -/
def MsgArray.In.callOp (inp : MsgArrayIn) (x radius : Nat) : Bool × MsgFilter :=
  (decide (radius = 0 ∨ radius > inp.length),
   { loc := x, radius := radius, length := inp.length, combined_hash := inp.combined_hash })

/-- `MsgArray::In::Filter::Message::getX` body: the absolute bin
`(loc + relative_cell + length) % length`, computed in C over unsigned int, so
the signed sum is first reduced modulo 2^32. -/
def arrayBin (loc : Nat) (rel : Int) (len : Nat) : Nat :=
  ((((loc : Int) + rel + (len : Int)) % (2 ^ 32)).toNat) % len

/-- `MsgArray::In::Filter::Message`: relative offset within the window and the
absolute index of the currently pointed message (`index_1d`, default 0). -/
structure FilterMsg where
  relative : Int
  index1d : Nat

/-- Modelled from the spec: `MsgArray::In::Filter::Message::operator++` (its
body is not under src/). Each step adds 1 to the relative offset, skipping
relative offset 0 so the origin cell is excluded, then recomputes the absolute
bin as `(loc + relative + length) % length`. -/
def FilterMsg.inc (f : MsgFilter) (m : FilterMsg) : FilterMsg :=
  let r := if m.relative + 1 = 0 then m.relative + 2 else m.relative + 1
  { relative := r, index1d := arrayBin f.loc r f.length }

/-- `MsgArray::In::Filter::begin()`: a message at relative offset
`-radius - 1`, advanced once by the iterator constructor. -/
def MsgFilter.beginMsg (f : MsgFilter) : FilterMsg :=
  FilterMsg.inc f { relative := -(f.radius : Int) - 1, index1d := 0 }

/-- `MsgArray::In::Filter::end()`: the sentinel message built from relative
offset `radius`, advanced once by the iterator constructor. -/
def MsgFilter.endMsg (f : MsgFilter) : FilterMsg :=
  FilterMsg.inc f { relative := (f.radius : Int), index1d := 0 }

/-- Iteration loop of a MsgFilter: iterator equality compares `index_1d` (and the
shared search origin), so the loop stops when the current absolute bin equals
the end sentinel's absolute bin. Fuel-bounded; `2 * radius + 2` steps always
suffice because the relative offset reaches the sentinel's offset by then. -/
def MsgFilter.visitAux (f : MsgFilter) (stop : Nat) : FilterMsg → Nat → List Nat
  | _, 0 => []
  | m, Nat.succ fuel =>
    if m.index1d = stop then []
    else m.index1d :: MsgFilter.visitAux f stop (FilterMsg.inc f m) fuel

/-- The list of absolute bins visited by iterating the filter from `begin()`
to `end()`. -/
def MsgFilter.visitedBins (f : MsgFilter) : List Nat :=
  MsgFilter.visitAux f (MsgFilter.endMsg f).index1d (MsgFilter.beginMsg f) (2 * f.radius + 2)

/-- The relative-offset advance used by the iterator: add 1, skipping 0. -/
def incRel (r : Int) : Int := if r + 1 = 0 then r + 2 else r + 1

/-- The sequence of relative offsets from `cur` up to (excluding) `stop`,
advancing with `incRel`. -/
def relSeqAux (stop : Int) (cur : Int) : List Int :=
  if h : stop ≤ cur then []
  else cur :: relSeqAux stop (incRel cur)
termination_by (stop - cur).toNat
decreasing_by
  have h1 : cur < stop := lt_of_not_le h
  have h2 : cur + 1 ≤ incRel cur := by
    unfold incRel
    by_cases hz : cur + 1 = 0 <;> simp [hz] <;> omega
  omega

/-- The window of relative offsets a filter's iteration ranges over: from the
begin message's offset `-radius` to the end sentinel's offset `radius + 1`. -/
def MsgFilter.windowRels (f : MsgFilter) : List Int :=
  relSeqAux ((f.radius : Int) + 1) (-(f.radius : Int))

/-- The absolute bins of the filter's window. -/
def MsgFilter.windowBins (f : MsgFilter) : List Nat :=
  (MsgFilter.windowRels f).map (fun d => arrayBin f.loc d f.length)

/-- Ascending run of integers `[a, a+1, ..., a+n-1]`. -/
def intAsc : Int → Nat → List Int
  | _, 0 => []
  | a, Nat.succ n => a :: intAsc (a + 1) n

/-- Modelled from the spec: the sentinel agent id `ID_NOT_SET` (defines.h is not
under src/); ids issued by the monotonic counter start above it. -/
def ID_NOT_SET : Nat := 0

/-- The variable name of the agent identity field, `"_id"`. -/
def idVarName : List Char := ['_', 'i', 'd']

/-- CUDA `atomicInc(addr, cap)` update of the stored value:
`old >= cap ? 0 : old + 1` (the call returns the old value). -/
def atomicIncCap (old cap : Nat) : Nat := if old ≥ cap then 0 else old + 1

/-- Thread-private part of `DeviceAPI::AgentOut`: the mutable `id` member,
initialised to `ID_NOT_SET`. -/
structure AOThread where
  id : Nat

/-- Launch-shared state touched by `DeviceAPI::AgentOut`: the next-id counter,
the agent-output scan flags, the new-agent CURVE stores and the error counter
of the device error reporter (for the capability DTHROW). -/
structure AOGlobal where
  nextID : Nat
  scanFlag : Nat → Nat
  store : CurveStore Int
  arrStore : CurveArrStore Int
  errorCount : Nat

/-- `DeviceAPI::AgentOut::genID()`: only when `id == ID_NOT_SET`, assign
`id = atomicInc(nextID, max)`, write the new agent's `"_id"` field at the
thread's slot and set the thread's scan flag to 1; otherwise do nothing. -/
def AgentOut.genID (aoHash idx : Nat) (s : AOThread) (g : AOGlobal) : AOThread × AOGlobal :=
  if s.id = ID_NOT_SET then
    let newId := g.nextID
    let g1 : AOGlobal := { g with nextID := atomicIncCap g.nextID UINT_MAX }
    let g2 : AOGlobal := { g1 with store := Curve.setNewAgentVariable g1.store idVarName aoHash (Int.ofNat newId) idx }
    let g3 : AOGlobal := { g2 with scanFlag := fun i => if i = idx then 1 else g2.scanFlag i }
    ({ id := newId }, g3)
  else (s, g)

/-- `DeviceAPI::AgentOut::setVariable<T>(name, value)`: DTHROW a capability
error when the agent-output hash is absent; silently ignore reserved names;
else write the new-agent field then trigger `genID`. The redundant inner
`if (agent_output_hash)` of the source is kept. -/
def AgentOut.setVariable (aoHash idx : Nat) (name : List Char) (v : Int) (s : AOThread) (g : AOGlobal) : AOThread × AOGlobal :=
  if aoHash ≠ 0 then
    if name.head? = some '_' then (s, g)
    else if aoHash ≠ 0 then
      let g1 : AOGlobal := { g with store := Curve.setNewAgentVariable g.store name aoHash v idx }
      AgentOut.genID aoHash idx s g1
    else (s, g)
  else (s, { g with errorCount := g.errorCount + 1 })

/-- `DeviceAPI::AgentOut::setVariable<T, N>(name, array_index, value)`: the
array-element variant; the CURVE bounds-check failure is accumulated into the
error counter. -/
def AgentOut.setArrayVariable (N aoHash idx : Nat) (name : List Char) (ai : Nat) (v : Int) (s : AOThread) (g : AOGlobal) : AOThread × AOGlobal :=
  if aoHash ≠ 0 then
    if name.head? = some '_' then (s, g)
    else
      let w := Curve.setNewAgentArrayVariable N g.arrStore name aoHash v idx ai
      let g1 : AOGlobal := { g with arrStore := w.1,
                                    errorCount := g.errorCount + (if w.2 then 1 else 0) }
      AgentOut.genID aoHash idx s g1
  else (s, { g with errorCount := g.errorCount + 1 })

/-- `DeviceAPI::AgentOut::getID()`: trigger `genID` and return the id when the
agent-output hash is present; else DTHROW a capability error and return
`ID_NOT_SET`. -/
def AgentOut.getID (aoHash idx : Nat) (s : AOThread) (g : AOGlobal) : AOThread × AOGlobal × Nat :=
  if aoHash ≠ 0 then
    let p := AgentOut.genID aoHash idx s g
    (p.1, p.2, p.1.id)
  else (s, { g with errorCount := g.errorCount + 1 }, ID_NOT_SET)

/-- One call through the `DeviceAPI::AgentOut` interface. -/
inductive AOCall where
  | setVar (name : List Char) (v : Int)
  | setArr (N : Nat) (name : List Char) (ai : Nat) (v : Int)
  | queryID

/-- Execute one `AgentOut` call, dropping `getID`'s return value. -/
def AOCall.run (aoHash idx : Nat) (s : AOThread) (g : AOGlobal) : AOCall → AOThread × AOGlobal
  | AOCall.setVar name v => AgentOut.setVariable aoHash idx name v s g
  | AOCall.setArr N name ai v => AgentOut.setArrayVariable N aoHash idx name ai v s g
  | AOCall.queryID =>
    let r := AgentOut.getID aoHash idx s g
    (r.1, r.2.1)

/-- A concrete launch-shared agent-output state used in concrete evaluations:
next-id counter 1, clear scan flags, zeroed stores, no error. -/
def aoG1 : AOGlobal :=
  { nextID := 1, scanFlag := fun _ => 0, store := fun _ _ _ => 0,
    arrStore := fun _ _ _ _ => 0, errorCount := 0 }

/-- `DeviceExceptionBuffer`: counter, location detail, format string, argument
sizes and bytes. Character buffers are modelled as the list of bytes written
into them; `format_args` is the compacted argument byte buffer. -/
structure DeviceExceptionBuffer where
  error_count : Nat
  file_path : List Char
  line_no : Nat
  block_id : Nat × Nat × Nat
  thread_id : Nat × Nat × Nat
  format_string : List Char
  format_args_sizes : List Nat
  format_args : List Nat
  arg_count : Nat
  arg_offset : Nat
deriving DecidableEq

/-- The zero-initialised per-launch exception buffer. -/
def cleanBuffer : DeviceExceptionBuffer :=
  { error_count := 0, file_path := [], line_no := 0, block_id := (0, 0, 0),
    thread_id := (0, 0, 0), format_string := [], format_args_sizes := [],
    format_args := [], arg_count := 0, arg_offset := 0 }

/-- Position of the first NUL character of a C string modelled as a char list
(the cell just past the list is treated as NUL). -/
def cstrNulIdx : List Char → Nat
  | [] => 0
  | ch :: rest => if ch = Char.ofNat 0 then 0 else cstrNulIdx rest + 1

/-- `DeviceException::strlen(c)`: scans at most `FORMAT_BUFF_LEN` characters
for the terminator and returns the terminated length including the terminating
character (`eos + 1`). -/
def DeviceException.strlenDev (c : List Char) : Nat :=
  min (cstrNulIdx c) FORMAT_BUFF_LEN + 1

/-- One thread's DTHROW invocation: the source file path (as the C string
memory at `__FILE__`), line, block/thread coordinates, format string and the
serialized bytes of each variadic argument. -/
structure DThrowCall where
  file : List Char
  line : Nat
  blockId : Nat × Nat × Nat
  threadId : Nat × Nat × Nat
  fmt : List Char
  args : List (List Nat)

/-- `DeviceException::subformat(buff, t)`: append one argument's size and raw
bytes when both the argument-count and the argument-buffer capacity allow. -/
def DeviceException.subformat (b : DeviceExceptionBuffer) (bytes : List Nat) : DeviceExceptionBuffer :=
  if b.arg_count < MAX_ARGS then
    if b.arg_offset + bytes.length ≤ ARG_BUFF_LEN then
      { b with format_args_sizes := b.format_args_sizes ++ [bytes.length],
               format_args := b.format_args ++ bytes,
               arg_count := b.arg_count + 1,
               arg_offset := b.arg_offset + bytes.length }
    else b
  else b

/-- `DeviceException::setMessage(format, args...)`: only the claiming thread
writes; a guard returns early when the format string is already non-empty;
the format string is copied truncated to `FORMAT_BUFF_LEN` and the arguments
are processed by `subformat_recurse`. -/
def DeviceException.setMessage (hasError : Bool) (b : DeviceExceptionBuffer) (fmt : List Char) (args : List (List Nat)) : DeviceExceptionBuffer :=
  if hasError then
    if b.format_string ≠ [] then b
    else
      let eos := min (cstrNulIdx fmt) FORMAT_BUFF_LEN
      let b2 := { b with format_string := fmt.take eos }
      args.foldl DeviceException.subformat b2
  else b

/-- `DeviceException::DeviceException(file, line)`: atomically pre-increment
the shared error counter (`atomicInc(&error_count, UINT_MAX)`); the thread that
read 0 claims the buffer and copies the file path (`strlen`-truncated), line
number and block/thread coordinates. Returns `hasError` and the new buffer. -/
def DeviceException.construct (b : DeviceExceptionBuffer) (c : DThrowCall) : Bool × DeviceExceptionBuffer :=
  let prev := b.error_count
  let b1 := { b with error_count := atomicIncCap prev UINT_MAX }
  if prev = 0 then
    let file_len := DeviceException.strlenDev c.file
    (true, { b1 with file_path := c.file.take file_len, line_no := c.line,
                     block_id := c.blockId, thread_id := c.threadId })
  else (false, b1)

/-- One full `DTHROW(fmt, args...)` invocation: construct the exception then
call `setMessage`. -/
def dthrowStep (b : DeviceExceptionBuffer) (c : DThrowCall) : DeviceExceptionBuffer :=
  let r := DeviceException.construct b c
  DeviceException.setMessage r.1 r.2 c.fmt c.args

/-- A serialization of the DTHROW invocations of one kernel launch: the atomic
pre-increments order the failing threads, each then runs its invocation. -/
def runDThrows (b : DeviceExceptionBuffer) (cs : List DThrowCall) : DeviceExceptionBuffer :=
  cs.foldl dthrowStep b

/-- A source file path of `FILE_BUFF_LEN` non-NUL characters followed by the
terminator. -/
def c8File : List Char := List.replicate FILE_BUFF_LEN 'a' ++ [Char.ofNat 0]

/-- A DTHROW invocation whose source file path has `FILE_BUFF_LEN` characters
before the terminator. -/
def c8Call : DThrowCall :=
  { file := c8File, line := 5, blockId := (0, 0, 0), threadId := (0, 0, 0),
    fmt := ['e'], args := [] }

/-- `genID` is a no-op once an id has been assigned. -/
theorem AgentOut.genID_already (aoHash idx : Nat) (s : AOThread) (g : AOGlobal)
    (h : s.id ≠ ID_NOT_SET) : AgentOut.genID aoHash idx s g = (s, g) := by
  simp [AgentOut.genID, h]

/-- `subformat` only touches the argument fields of the buffer. -/
theorem DeviceException.subformat_frame (b : DeviceExceptionBuffer) (a : List Nat) :
    (DeviceException.subformat b a).error_count = b.error_count
    ∧ (DeviceException.subformat b a).file_path = b.file_path
    ∧ (DeviceException.subformat b a).line_no = b.line_no
    ∧ (DeviceException.subformat b a).block_id = b.block_id
    ∧ (DeviceException.subformat b a).thread_id = b.thread_id
    ∧ (DeviceException.subformat b a).format_string = b.format_string := by
  unfold DeviceException.subformat
  split_ifs <;> simp

/-- Folding `subformat` over an argument list only touches the argument
fields of the buffer. -/
theorem DeviceException.subformat_foldl_frame (args : List (List Nat)) :
    ∀ b : DeviceExceptionBuffer,
    ((args.foldl DeviceException.subformat b).error_count = b.error_count
     ∧ (args.foldl DeviceException.subformat b).file_path = b.file_path
     ∧ (args.foldl DeviceException.subformat b).line_no = b.line_no
     ∧ (args.foldl DeviceException.subformat b).block_id = b.block_id
     ∧ (args.foldl DeviceException.subformat b).thread_id = b.thread_id
     ∧ (args.foldl DeviceException.subformat b).format_string = b.format_string) := by
  induction args with
  | nil => intro b; simp
  | cons a rest ih =>
    intro b
    have h1 := DeviceException.subformat_frame b a
    have h2 := ih (DeviceException.subformat b a)
    simp only [List.foldl_cons]
    exact ⟨h2.1.trans h1.1, h2.2.1.trans h1.2.1, h2.2.2.1.trans h1.2.2.1,
           h2.2.2.2.1.trans h1.2.2.2.1, h2.2.2.2.2.1.trans h1.2.2.2.2.1,
           h2.2.2.2.2.2.trans h1.2.2.2.2.2⟩

/-- `setMessage` leaves the counter and the location detail unchanged. -/
theorem DeviceException.setMessage_frame (he : Bool) (b : DeviceExceptionBuffer)
    (fmt : List Char) (args : List (List Nat)) :
    (DeviceException.setMessage he b fmt args).error_count = b.error_count
    ∧ (DeviceException.setMessage he b fmt args).file_path = b.file_path
    ∧ (DeviceException.setMessage he b fmt args).line_no = b.line_no
    ∧ (DeviceException.setMessage he b fmt args).block_id = b.block_id
    ∧ (DeviceException.setMessage he b fmt args).thread_id = b.thread_id := by
  unfold DeviceException.setMessage
  split_ifs with h1 h2
  · simp
  · have h := DeviceException.subformat_foldl_frame args
      { b with format_string := fmt.take (min (cstrNulIdx fmt) FORMAT_BUFF_LEN) }
    refine ⟨h.1.trans ?_, h.2.1.trans ?_, h.2.2.1.trans ?_, h.2.2.2.1.trans ?_,
      h.2.2.2.2.1.trans ?_⟩ <;> rfl
  · simp

/-- A DTHROW against a buffer whose counter is already nonzero only applies
the atomic increment to the counter. -/
theorem dthrowStep_counted_only (b : DeviceExceptionBuffer) (c : DThrowCall)
    (h : b.error_count ≠ 0) :
    dthrowStep b c = { b with error_count := atomicIncCap b.error_count UINT_MAX } := by
  unfold dthrowStep DeviceException.construct DeviceException.setMessage
  simp [h]

/-- Running a list of DTHROWs against a buffer whose counter is already nonzero
adds the list length to the counter and changes nothing else (as long as the
counter cannot wrap). -/
theorem runDThrows_counted_only (cs : List DThrowCall) :
    ∀ b : DeviceExceptionBuffer, b.error_count ≠ 0 →
    b.error_count + cs.length ≤ UINT_MAX →
    runDThrows b cs = { b with error_count := b.error_count + cs.length } := by
  induction cs with
  | nil => intro b _ _; cases b; simp [runDThrows]
  | cons c rest ih =>
    intro b hnz hb
    have hlen : (c :: rest).length = rest.length + 1 := List.length_cons c rest
    have hlt : b.error_count < UINT_MAX := by omega
    have hstep : dthrowStep b c = { b with error_count := b.error_count + 1 } := by
      rw [dthrowStep_counted_only b c hnz]
      have : atomicIncCap b.error_count UINT_MAX = b.error_count + 1 := by
        unfold atomicIncCap
        rw [if_neg (by omega)]
      rw [this]
    have hrw : runDThrows b (c :: rest) = runDThrows (dthrowStep b c) rest := rfl
    rw [hrw, hstep]
    have hb2 : ({ b with error_count := b.error_count + 1 } :
        DeviceExceptionBuffer).error_count + rest.length ≤ UINT_MAX := by
      simp only []
      omega
    rw [ih { b with error_count := b.error_count + 1 } (by simp) hb2]
    simp only []
    congr 1
    omega

/-- `cstrNulIdx` of a run of `'a'` characters prepended to a tail. -/
theorem cstrNulIdx_replicate_a (n : Nat) (l : List Char) :
    cstrNulIdx (List.replicate n 'a' ++ l) = n + cstrNulIdx l := by
  induction n with
  | zero => simp
  | succ k ih =>
    have hne : ('a' : Char) = Char.ofNat 0 ↔ False := by
      constructor
      · intro h; exact absurd h (by decide)
      · intro h; exact h.elim
    simp [List.replicate_succ, cstrNulIdx, ih, hne]
    omega

/-- Length of an ascending integer run. -/
theorem intAsc_length (n : Nat) : ∀ a : Int, (intAsc a n).length = n := by
  induction n with
  | zero => intro a; rfl
  | succ k ih => intro a; simp [intAsc, ih]

/-- Membership in an ascending integer run. -/
theorem mem_intAsc (n : Nat) : ∀ a d : Int, d ∈ intAsc a n ↔ a ≤ d ∧ d < a + n := by
  induction n with
  | zero => intro a d; simp [intAsc]
  | succ k ih =>
    intro a d
    rw [intAsc]
    simp only [List.mem_cons, ih]
    push_cast
    omega

/-- The relative-offset sequence starting at a positive offset is an ascending
run up to the sentinel. -/
theorem relSeqAux_pos (n : Nat) : ∀ a : Int, 1 ≤ a → relSeqAux (a + n) a = intAsc a n := by
  induction n with
  | zero =>
    intro a _
    rw [relSeqAux]
    simp [intAsc]
  | succ k ih =>
    intro a ha
    rw [relSeqAux]
    have hnotle : ¬ ((a + ((k + 1 : Nat) : Int)) ≤ a) := by push_cast; omega
    rw [dif_neg hnotle]
    have hinc : incRel a = a + 1 := by
      unfold incRel
      rw [if_neg (by omega)]
    rw [hinc]
    have hshift : a + ((k + 1 : Nat) : Int) = (a + 1) + (k : Int) := by push_cast; ring
    rw [hshift, ih (a + 1) (by omega), intAsc]

/-- The relative-offset sequence starting at a negative offset runs up to -1,
skips 0, and continues from 1. -/
theorem relSeqAux_neg (n : Nat) : ∀ stop : Int, 1 ≤ stop →
    relSeqAux stop (-(n : Int) - 1) = intAsc (-(n : Int) - 1) (n + 1) ++ relSeqAux stop 1 := by
  induction n with
  | zero =>
    intro stop hstop
    rw [relSeqAux]
    have hnotle : ¬ (stop ≤ -((0 : Nat) : Int) - 1) := by push_cast; omega
    rw [dif_neg hnotle]
    have hinc : incRel (-((0 : Nat) : Int) - 1) = 1 := by
      unfold incRel
      norm_num
    rw [hinc]
    simp [intAsc]
  | succ k ih =>
    intro stop hstop
    rw [relSeqAux]
    have hnotle : ¬ (stop ≤ -((k + 1 : Nat) : Int) - 1) := by push_cast; omega
    rw [dif_neg hnotle]
    have hinc : incRel (-((k + 1 : Nat) : Int) - 1) = -(k : Int) - 1 := by
      unfold incRel
      rw [if_neg (by push_cast; omega)]
      push_cast
      ring
    rw [hinc, ih stop hstop]
    have hcons : intAsc (-((k + 1 : Nat) : Int) - 1) (k + 1 + 1)
        = (-((k + 1 : Nat) : Int) - 1) :: intAsc (-(k : Int) - 1) (k + 1) := by
      rw [intAsc]
      have : (-((k + 1 : Nat) : Int) - 1) + 1 = -(k : Int) - 1 := by push_cast; ring
      rw [this]
    rw [hcons]
    rfl

/-- The window of a filter with radius `r >= 1` is the ascending run from `-r`
to `-1` followed by the ascending run from `1` to `r`. -/
theorem windowRels_eq (f : MsgFilter) (h1 : 1 ≤ f.radius) :
    MsgFilter.windowRels f = intAsc (-(f.radius : Int)) f.radius ++ intAsc 1 f.radius := by
  unfold MsgFilter.windowRels
  obtain ⟨k, hk⟩ : ∃ k, f.radius = k + 1 := ⟨f.radius - 1, by omega⟩
  rw [hk]
  have hstart : (-(((k + 1 : Nat)) : Int)) = -((k : Nat) : Int) - 1 := by push_cast; ring
  rw [hstart]
  have hstop : (1 : Int) ≤ ((k + 1 : Nat) : Int) + 1 := by push_cast; omega
  rw [relSeqAux_neg k (((k + 1 : Nat) : Int) + 1) hstop]
  have hpos : relSeqAux (((k + 1 : Nat) : Int) + 1) 1 = intAsc 1 (k + 1) := by
    have hshift : ((k + 1 : Nat) : Int) + 1 = (1 : Int) + ((k + 1 : Nat) : Int) := by ring
    rw [hshift]
    exact relSeqAux_pos (k + 1) 1 (by omega)
  rw [hpos]

/-- C2: for every registered variable name not starting with the reserved
prefix character, and every value of the registered type, `setVariable`
followed by `getVariable` by the same thread in the same kernel (matching
type, and for array variables the same in-bounds element index) returns
exactly the written value. -/
theorem C2_set_get_roundtrip {V : Type} [Zero V] (hash : Nat) (t : ThreadCtx)
    (s : CurveStore V) (sa : CurveArrStore V) (name : List Char) (v w : V) (N ai : Nat)
    (hname : name.head? ≠ some '_') (hai : ai < N) :
    ReadOnlyDeviceAPI.getVariable hash t (DeviceAPI.setVariable hash t s name v) name = v
    ∧ (ReadOnlyDeviceAPI.getArrayVariable N hash t
        (DeviceAPI.setArrayVariable N hash t sa name ai w).1 name ai).1 = w := by
  constructor
  · simp [ReadOnlyDeviceAPI.getVariable, DeviceAPI.setVariable, Curve.getAgentVariable,
      Curve.setAgentVariable, hname]
  · simp [ReadOnlyDeviceAPI.getArrayVariable, DeviceAPI.setArrayVariable,
      Curve.getAgentArrayVariable, Curve.setAgentArrayVariable, hname, hai]

/-- Witness for C2 at concrete inputs. -/
theorem C2_set_get_roundtrip_witness :
    ((['x'] : List Char).head? ≠ some '_') ∧ (2 < 4)
    ∧ ReadOnlyDeviceAPI.getVariable 3 ⟨1, 0, 0⟩
        (DeviceAPI.setVariable 3 ⟨1, 0, 0⟩ (fun _ _ _ => (0 : Int)) ['x'] 7) ['x'] = 7
    ∧ (ReadOnlyDeviceAPI.getArrayVariable 4 3 ⟨1, 0, 0⟩
        (DeviceAPI.setArrayVariable 4 3 ⟨1, 0, 0⟩ (fun _ _ _ _ => (0 : Int)) ['x'] 2 9).1
        ['x'] 2).1 = 9 :=
  ⟨by decide, by decide,
   (C2_set_get_roundtrip 3 ⟨1, 0, 0⟩ (fun _ _ _ => (0 : Int)) (fun _ _ _ _ => (0 : Int))
      ['x'] 7 9 4 2 (by decide) (by decide)).1,
   (C2_set_get_roundtrip 3 ⟨1, 0, 0⟩ (fun _ _ _ => (0 : Int)) (fun _ _ _ _ => (0 : Int))
      ['x'] 7 9 4 2 (by decide) (by decide)).2⟩

/-- C3: a `setVariable` with a name whose first character is the reserved
character, on the agent-state accessor and on the array message output channel,
returns without performing any write: the underlying store is unchanged; no
error is reported (none of the three paths contains a DTHROW — a silent
no-op by design). -/
theorem C3_reserved_silent_noop {V : Type} (hash ch : Nat) (t : ThreadCtx)
    (s m : CurveStore V) (sa : CurveArrStore V) (name : List Char) (v w : V) (N ai : Nat)
    (hname : name.head? = some '_') :
    DeviceAPI.setVariable hash t s name v = s
    ∧ DeviceAPI.setArrayVariable N hash t sa name ai v = (sa, false)
    ∧ MsgArray.Out.setVariable ch t m name w = m := by
  refine ⟨?_, ?_, ?_⟩ <;>
    simp [DeviceAPI.setVariable, DeviceAPI.setArrayVariable, MsgArray.Out.setVariable, hname]

/-- Witness for C3 at concrete inputs. -/
theorem C3_reserved_silent_noop_witness :
    ((['_', 'q'] : List Char).head? = some '_')
    ∧ DeviceAPI.setVariable 3 ⟨1, 0, 0⟩ (fun _ _ _ => (0 : Int)) ['_', 'q'] 7
        = (fun _ _ _ => (0 : Int))
    ∧ DeviceAPI.setArrayVariable 4 3 ⟨1, 0, 0⟩ (fun _ _ _ _ => (0 : Int)) ['_', 'q'] 2 7
        = ((fun _ _ _ _ => (0 : Int)), false)
    ∧ MsgArray.Out.setVariable 9 ⟨1, 0, 0⟩ (fun _ _ _ => (0 : Int)) ['_', 'q'] 8
        = (fun _ _ _ => (0 : Int)) :=
  ⟨by decide,
   (C3_reserved_silent_noop 3 9 ⟨1, 0, 0⟩ (fun _ _ _ => (0 : Int)) (fun _ _ _ => (0 : Int))
      (fun _ _ _ _ => (0 : Int)) ['_', 'q'] 7 8 4 2 (by decide)).1,
   (C3_reserved_silent_noop 3 9 ⟨1, 0, 0⟩ (fun _ _ _ => (0 : Int)) (fun _ _ _ => (0 : Int))
      (fun _ _ _ _ => (0 : Int)) ['_', 'q'] 7 8 4 2 (by decide)).2.1,
   (C3_reserved_silent_noop 3 9 ⟨1, 0, 0⟩ (fun _ _ _ => (0 : Int)) (fun _ _ _ => (0 : Int))
      (fun _ _ _ _ => (0 : Int)) ['_', 'q'] 7 8 4 2 (by decide)).2.2⟩

/-- C6: `In::at(i)` reports an out-of-bounds error exactly when `i >= L` and
returns a handle bound to `i`; `getVariable` on a bound handle returns the
stored field value when the bound index is below `L`, and the zero value of the
type when it is not, without reporting a further error (the embedding of
`MsgArray::Message::getVariable` is pure — its body contains no DTHROW). -/
theorem C6_at_bounds_and_zero_default {V : Type} [Zero V] (inp : MsgArrayIn) (i : Nat)
    (s : CurveStore V) (name : List Char) (v : V) :
    ((MsgArray.In.atMsg inp i).1 = true ↔ i ≥ inp.length)
    ∧ (MsgArray.In.atMsg inp i).2.index = i
    ∧ (i < inp.length →
        MsgArray.Message.getVariable inp
          (Curve.setVariable s name inp.combined_hash v i) (MsgArray.In.atMsg inp i).2 name = v)
    ∧ (i ≥ inp.length →
        MsgArray.Message.getVariable inp s (MsgArray.In.atMsg inp i).2 name = 0) := by
  refine ⟨by simp [MsgArray.In.atMsg], rfl, ?_, ?_⟩
  · intro hi
    simp [MsgArray.Message.getVariable, MsgArray.In.atMsg, hi, Curve.getVariable,
      Curve.setVariable]
  · intro hi
    have hno : ¬ (i < inp.length) := by omega
    simp [MsgArray.Message.getVariable, MsgArray.In.atMsg, hno]

/-- Witness for C6 at concrete inputs (one in-range index, one out of range). -/
theorem C6_at_bounds_and_zero_default_witness :
    (3 < 10) ∧ (12 ≥ 10)
    ∧ ((MsgArray.In.atMsg ⟨7, 10⟩ 3).1 = true ↔ 3 ≥ (⟨7, 10⟩ : MsgArrayIn).length)
    ∧ MsgArray.Message.getVariable ⟨7, 10⟩
        (Curve.setVariable (fun _ _ _ => (0 : Int)) ['x'] 7 5 3)
        (MsgArray.In.atMsg ⟨7, 10⟩ 3).2 ['x'] = 5
    ∧ MsgArray.Message.getVariable ⟨7, 10⟩ (fun _ _ _ => (0 : Int))
        (MsgArray.In.atMsg ⟨7, 10⟩ 12).2 ['x'] = 0 :=
  ⟨by decide, by decide,
   (C6_at_bounds_and_zero_default ⟨7, 10⟩ 3 (fun _ _ _ => (0 : Int)) ['x'] 5).1,
   (C6_at_bounds_and_zero_default ⟨7, 10⟩ 3 (fun _ _ _ => (0 : Int)) ['x'] 5).2.2.1 (by decide),
   (C6_at_bounds_and_zero_default ⟨7, 10⟩ 12 (fun _ _ _ => (0 : Int)) ['x'] 5).2.2.2 (by decide)⟩

/-- C7: with agent output not enabled (agent-output hash zero), both
`AgentOut::setVariable` overloads and `AgentOut::getID` report a capability
error through the device error reporter, change nothing of the agent-output
state (no next-id increment, no scan flag, no field write, thread id
untouched), and `getID` returns the sentinel `ID_NOT_SET`. -/
theorem C7_capability_error (aoHash idx N ai : Nat) (name : List Char) (v w : Int)
    (s : AOThread) (g : AOGlobal) (hcap : aoHash = 0) :
    AgentOut.setVariable aoHash idx name v s g
      = (s, { g with errorCount := g.errorCount + 1 })
    ∧ AgentOut.setArrayVariable N aoHash idx name ai w s g
      = (s, { g with errorCount := g.errorCount + 1 })
    ∧ AgentOut.getID aoHash idx s g
      = (s, { g with errorCount := g.errorCount + 1 }, ID_NOT_SET) := by
  subst hcap
  refine ⟨?_, ?_, ?_⟩ <;>
    simp [AgentOut.setVariable, AgentOut.setArrayVariable, AgentOut.getID]

/-- Witness for C7 at concrete inputs. -/
theorem C7_capability_error_witness :
    ((0 : Nat) = 0)
    ∧ AgentOut.setVariable 0 2 ['x'] 7 { id := ID_NOT_SET } aoG1
        = ({ id := ID_NOT_SET }, { aoG1 with errorCount := aoG1.errorCount + 1 })
    ∧ AgentOut.setArrayVariable 4 0 2 ['x'] 1 8 { id := ID_NOT_SET } aoG1
        = ({ id := ID_NOT_SET }, { aoG1 with errorCount := aoG1.errorCount + 1 })
    ∧ AgentOut.getID 0 2 { id := ID_NOT_SET } aoG1
        = ({ id := ID_NOT_SET }, { aoG1 with errorCount := aoG1.errorCount + 1 }, ID_NOT_SET) :=
  ⟨rfl,
   (C7_capability_error 0 2 4 1 ['x'] 7 8 { id := ID_NOT_SET } aoG1 rfl).1,
   (C7_capability_error 0 2 4 1 ['x'] 7 8 { id := ID_NOT_SET } aoG1 rfl).2.1,
   (C7_capability_error 0 2 4 1 ['x'] 7 8 { id := ID_NOT_SET } aoG1 rfl).2.2⟩

/-- C10: with agent output enabled, an `AgentOut::setVariable` (either
overload) whose name starts with the reserved character returns with the
thread state and the whole shared agent-output state unchanged: no next-id
increment, no scan flag, no field write — so a thread whose only `AgentOut`
setter calls use reserved names outputs no agent. -/
theorem C10_reserved_agentout_no_trigger (aoHash idx N ai : Nat) (name : List Char)
    (v w : Int) (s : AOThread) (g : AOGlobal)
    (hcap : aoHash ≠ 0) (hname : name.head? = some '_') :
    AgentOut.setVariable aoHash idx name v s g = (s, g)
    ∧ AgentOut.setArrayVariable N aoHash idx name ai w s g = (s, g) := by
  constructor <;> simp [AgentOut.setVariable, AgentOut.setArrayVariable, hcap, hname]

/-- Witness for C10 at concrete inputs. -/
theorem C10_reserved_agentout_no_trigger_witness :
    ((1 : Nat) ≠ 0) ∧ ((['_', 'q'] : List Char).head? = some '_')
    ∧ AgentOut.setVariable 1 2 ['_', 'q'] 7 { id := ID_NOT_SET } aoG1
        = ({ id := ID_NOT_SET }, aoG1)
    ∧ AgentOut.setArrayVariable 4 1 2 ['_', 'q'] 1 8 { id := ID_NOT_SET } aoG1
        = ({ id := ID_NOT_SET }, aoG1) :=
  ⟨by decide, by decide,
   (C10_reserved_agentout_no_trigger 1 2 4 1 ['_', 'q'] 7 8 { id := ID_NOT_SET } aoG1
      (by decide) (by decide)).1,
   (C10_reserved_agentout_no_trigger 1 2 4 1 ['_', 'q'] 7 8 { id := ID_NOT_SET } aoG1
      (by decide) (by decide)).2⟩

/-- After an id has been assigned, any further `AgentOut` call leaves the
thread id, the next-id counter and the scan flags unchanged. -/
theorem AOCall.run_after_assigned (aoHash idx : Nat) (s : AOThread) (g : AOGlobal)
    (c : AOCall) (hcap : aoHash ≠ 0) (hid : s.id ≠ ID_NOT_SET) :
    (AOCall.run aoHash idx s g c).1 = s
    ∧ (AOCall.run aoHash idx s g c).2.nextID = g.nextID
    ∧ (AOCall.run aoHash idx s g c).2.scanFlag = g.scanFlag := by
  cases c with
  | setVar name v =>
    by_cases hres : name.head? = some '_'
    · simp [AOCall.run, AgentOut.setVariable, hcap, hres]
    · simp [AOCall.run, AgentOut.setVariable, hcap, hres, AgentOut.genID, hid]
  | setArr N name ai v =>
    by_cases hres : name.head? = some '_'
    · simp [AOCall.run, AgentOut.setArrayVariable, hcap, hres]
    · simp [AOCall.run, AgentOut.setArrayVariable, hcap, hres, AgentOut.genID, hid]
  | queryID => simp [AOCall.run, AgentOut.getID, hcap, AgentOut.genID, hid]

/-- The first id-triggering call (a `getID`, or a `setVariable` with a
non-reserved name) of a thread with a fresh `AgentOut` performs identity
generation: it applies the atomic increment to the next-id counter, assigns the
pre-increment value as the thread's id, writes it into the new agent's `"_id"`
field at the thread's slot and sets the thread's scan flag to 1. -/
theorem AOCall.run_first_generates (aoHash idx : Nat) (g : AOGlobal) (c : AOCall)
    (hcap : aoHash ≠ 0)
    (hfirst : c = AOCall.queryID
      ∨ (∃ name v, c = AOCall.setVar name v ∧ name.head? ≠ some '_')
      ∨ (∃ N name ai v, c = AOCall.setArr N name ai v ∧ name.head? ≠ some '_')) :
    (AOCall.run aoHash idx { id := ID_NOT_SET } g c).1.id = g.nextID
    ∧ (AOCall.run aoHash idx { id := ID_NOT_SET } g c).2.nextID
        = atomicIncCap g.nextID UINT_MAX
    ∧ (AOCall.run aoHash idx { id := ID_NOT_SET } g c).2.scanFlag idx = 1
    ∧ Curve.getVariable (AOCall.run aoHash idx { id := ID_NOT_SET } g c).2.store
        idVarName aoHash idx = Int.ofNat g.nextID := by
  rcases hfirst with hc | ⟨name, v, hc, hres⟩ | ⟨N, name, ai, v, hc, hres⟩
  · subst hc
    simp [AOCall.run, AgentOut.getID, hcap, AgentOut.genID, Curve.getVariable,
      Curve.setNewAgentVariable]
  · subst hc
    simp [AOCall.run, AgentOut.setVariable, hcap, hres, AgentOut.genID, Curve.getVariable,
      Curve.setNewAgentVariable]
  · subst hc
    simp [AOCall.run, AgentOut.setArrayVariable, hcap, hres, AgentOut.genID, Curve.getVariable,
      Curve.setNewAgentVariable]

/-- C4 counterexample: the claim counts any first `AgentOut::setVariable` call
as triggering identity generation, but with agent output enabled a first
`setVariable` whose name starts with the reserved character performs none of
it: the next-id counter, the thread's scan flag and the thread's id are all
unchanged. -/
theorem C4_reserved_first_call_counterexample :
    (AgentOut.setVariable 1 0 ['_', 'x'] 7 { id := ID_NOT_SET } aoG1).2.nextID = aoG1.nextID
    ∧ (AgentOut.setVariable 1 0 ['_', 'x'] 7 { id := ID_NOT_SET } aoG1).2.scanFlag 0
        = aoG1.scanFlag 0
    ∧ (AgentOut.setVariable 1 0 ['_', 'x'] 7 { id := ID_NOT_SET } aoG1).1.id = ID_NOT_SET := by
  refine ⟨?_, ?_, ?_⟩ <;> simp [AgentOut.setVariable]

/-- C4 (amended): for a thread with agent output enabled, whichever of
`AgentOut::setVariable` with a non-reserved variable name or `AgentOut::getID`
is called first performs identity generation exactly once: it applies the
atomic increment to the shared next-id counter once, writes the new id into the
agent's `"_id"` identity field at the thread's output slot, and sets the
thread's scan flag to 1; every later `AgentOut` call by the same thread in the
same launch reuses the already-assigned id and does not increment the counter
again (idempotent id assignment; field writes are last-write-wins). -/
theorem C4_lazy_id_generation_once (aoHash idx : Nat) (g : AOGlobal) (c : AOCall)
    (hcap : aoHash ≠ 0) (hn1 : g.nextID ≠ 0) (hn2 : g.nextID < UINT_MAX)
    (hfirst : c = AOCall.queryID
      ∨ (∃ name v, c = AOCall.setVar name v ∧ name.head? ≠ some '_')
      ∨ (∃ N name ai v, c = AOCall.setArr N name ai v ∧ name.head? ≠ some '_')) :
    (AOCall.run aoHash idx { id := ID_NOT_SET } g c).2.nextID = g.nextID + 1
    ∧ (AOCall.run aoHash idx { id := ID_NOT_SET } g c).1.id = g.nextID
    ∧ (AOCall.run aoHash idx { id := ID_NOT_SET } g c).2.scanFlag idx = 1
    ∧ Curve.getVariable (AOCall.run aoHash idx { id := ID_NOT_SET } g c).2.store
        idVarName aoHash idx = Int.ofNat g.nextID
    ∧ (∀ c2 : AOCall,
        (AOCall.run aoHash idx (AOCall.run aoHash idx { id := ID_NOT_SET } g c).1
            (AOCall.run aoHash idx { id := ID_NOT_SET } g c).2 c2).1
          = (AOCall.run aoHash idx { id := ID_NOT_SET } g c).1
        ∧ (AOCall.run aoHash idx (AOCall.run aoHash idx { id := ID_NOT_SET } g c).1
            (AOCall.run aoHash idx { id := ID_NOT_SET } g c).2 c2).2.nextID
          = (AOCall.run aoHash idx { id := ID_NOT_SET } g c).2.nextID
        ∧ (AOCall.run aoHash idx (AOCall.run aoHash idx { id := ID_NOT_SET } g c).1
            (AOCall.run aoHash idx { id := ID_NOT_SET } g c).2 c2).2.scanFlag
          = (AOCall.run aoHash idx { id := ID_NOT_SET } g c).2.scanFlag) := by
  have h1 := AOCall.run_first_generates aoHash idx g c hcap hfirst
  have hinc : atomicIncCap g.nextID UINT_MAX = g.nextID + 1 := by
    unfold atomicIncCap
    rw [if_neg (by omega)]
  have hid : (AOCall.run aoHash idx { id := ID_NOT_SET } g c).1.id ≠ ID_NOT_SET := by
    rw [h1.1]
    unfold ID_NOT_SET
    exact hn1
  refine ⟨h1.2.1.trans hinc, h1.1, h1.2.2.1, h1.2.2.2, ?_⟩
  intro c2
  exact AOCall.run_after_assigned aoHash idx _ _ c2 hcap hid

/-- Witness for the amended C4 at concrete inputs (first call a `getID`). -/
theorem C4_lazy_id_generation_once_witness :
    ((1 : Nat) ≠ 0) ∧ (aoG1.nextID ≠ 0) ∧ (aoG1.nextID < UINT_MAX)
    ∧ ((AOCall.run 1 0 { id := ID_NOT_SET } aoG1 AOCall.queryID).2.nextID = aoG1.nextID + 1
       ∧ (AOCall.run 1 0 { id := ID_NOT_SET } aoG1 AOCall.queryID).1.id = aoG1.nextID
       ∧ (AOCall.run 1 0 { id := ID_NOT_SET } aoG1 AOCall.queryID).2.scanFlag 0 = 1
       ∧ Curve.getVariable (AOCall.run 1 0 { id := ID_NOT_SET } aoG1 AOCall.queryID).2.store
           idVarName 1 0 = Int.ofNat aoG1.nextID
       ∧ (∀ c2 : AOCall,
           (AOCall.run 1 0 (AOCall.run 1 0 { id := ID_NOT_SET } aoG1 AOCall.queryID).1
               (AOCall.run 1 0 { id := ID_NOT_SET } aoG1 AOCall.queryID).2 c2).1
             = (AOCall.run 1 0 { id := ID_NOT_SET } aoG1 AOCall.queryID).1
           ∧ (AOCall.run 1 0 (AOCall.run 1 0 { id := ID_NOT_SET } aoG1 AOCall.queryID).1
               (AOCall.run 1 0 { id := ID_NOT_SET } aoG1 AOCall.queryID).2 c2).2.nextID
             = (AOCall.run 1 0 { id := ID_NOT_SET } aoG1 AOCall.queryID).2.nextID
           ∧ (AOCall.run 1 0 (AOCall.run 1 0 { id := ID_NOT_SET } aoG1 AOCall.queryID).1
               (AOCall.run 1 0 { id := ID_NOT_SET } aoG1 AOCall.queryID).2 c2).2.scanFlag
             = (AOCall.run 1 0 { id := ID_NOT_SET } aoG1 AOCall.queryID).2.scanFlag)) :=
  ⟨by decide, by decide, by decide,
   C4_lazy_id_generation_once 1 0 aoG1 AOCall.queryID (by decide) (by decide) (by decide)
     (Or.inl rfl)⟩

/-- C1: for every kernel launch in which `F >= 1` threads invoke DTHROW (as a
serialization ordered by the atomic pre-increments), the shared error counter
ends equal to `F`; the final buffer equals the buffer written by the single
thread whose pre-increment returned 0 (the first), except for the counter; and
every other failing thread changes nothing but the counter (last conjunct).
The detail fields written by the claimant are its file path, line number,
block/thread coordinates (and, via `setMessage`, format string and
arguments). -/
theorem C1_error_counter_and_single_claimant (c : DThrowCall) (rest : List DThrowCall)
    (hF : (c :: rest).length ≤ UINT_MAX) :
    (runDThrows cleanBuffer (c :: rest)).error_count = (c :: rest).length
    ∧ runDThrows cleanBuffer (c :: rest)
        = { dthrowStep cleanBuffer c with error_count := (c :: rest).length }
    ∧ (dthrowStep cleanBuffer c).file_path = c.file.take (DeviceException.strlenDev c.file)
    ∧ (dthrowStep cleanBuffer c).line_no = c.line
    ∧ (dthrowStep cleanBuffer c).block_id = c.blockId
    ∧ (dthrowStep cleanBuffer c).thread_id = c.threadId
    ∧ (∀ (b : DeviceExceptionBuffer) (c2 : DThrowCall), b.error_count ≠ 0 →
        dthrowStep b c2 = { b with error_count := atomicIncCap b.error_count UINT_MAX }) := by
  have hconstr : (DeviceException.construct cleanBuffer c).2.error_count = 1
      ∧ (DeviceException.construct cleanBuffer c).2.file_path
          = c.file.take (DeviceException.strlenDev c.file)
      ∧ (DeviceException.construct cleanBuffer c).2.line_no = c.line
      ∧ (DeviceException.construct cleanBuffer c).2.block_id = c.blockId
      ∧ (DeviceException.construct cleanBuffer c).2.thread_id = c.threadId := by
    unfold DeviceException.construct cleanBuffer atomicIncCap UINT_MAX
    norm_num
  have hframe := DeviceException.setMessage_frame (DeviceException.construct cleanBuffer c).1
    (DeviceException.construct cleanBuffer c).2 c.fmt c.args
  have hstep : dthrowStep cleanBuffer c
      = DeviceException.setMessage (DeviceException.construct cleanBuffer c).1
          (DeviceException.construct cleanBuffer c).2 c.fmt c.args := rfl
  have hec1 : (dthrowStep cleanBuffer c).error_count = 1 := by
    rw [hstep, hframe.1, hconstr.1]
  have hecnz : (dthrowStep cleanBuffer c).error_count ≠ 0 := by
    rw [hec1]
    exact one_ne_zero
  have hrun : runDThrows cleanBuffer (c :: rest) = runDThrows (dthrowStep cleanBuffer c) rest :=
    rfl
  have hbound : (dthrowStep cleanBuffer c).error_count + rest.length ≤ UINT_MAX := by
    rw [hec1]
    simp only [List.length_cons] at hF
    omega
  have hcounted := runDThrows_counted_only rest (dthrowStep cleanBuffer c) hecnz hbound
  refine ⟨?_, ?_, ?_, ?_, ?_, ?_, ?_⟩
  · rw [hrun, hcounted]
    simp only [List.length_cons]
    rw [hec1]
    omega
  · rw [hrun, hcounted]
    have : (dthrowStep cleanBuffer c).error_count + rest.length = (c :: rest).length := by
      rw [hec1]
      simp only [List.length_cons]
      omega
    rw [this]
  · rw [hstep, hframe.2.1, hconstr.2.1]
  · rw [hstep, hframe.2.2.1, hconstr.2.2.1]
  · rw [hstep, hframe.2.2.2.1, hconstr.2.2.2.1]
  · rw [hstep, hframe.2.2.2.2, hconstr.2.2.2.2]
  · intro b c2 hb
    exact dthrowStep_counted_only b c2 hb

/-- Witness for C1 at a concrete two-thread failure. -/
theorem C1_error_counter_and_single_claimant_witness :
    (([{ file := ['a', Char.ofNat 0], line := 3, blockId := (1, 0, 0), threadId := (2, 0, 0),
         fmt := ['m'], args := [[7]] },
       { file := ['b', Char.ofNat 0], line := 9, blockId := (0, 0, 0), threadId := (1, 0, 0),
         fmt := ['n'], args := [] }] : List DThrowCall).length ≤ UINT_MAX)
    ∧ ((runDThrows cleanBuffer
          [{ file := ['a', Char.ofNat 0], line := 3, blockId := (1, 0, 0),
             threadId := (2, 0, 0), fmt := ['m'], args := [[7]] },
           { file := ['b', Char.ofNat 0], line := 9, blockId := (0, 0, 0),
             threadId := (1, 0, 0), fmt := ['n'], args := [] }]).error_count = 2) :=
  ⟨by decide,
   (C1_error_counter_and_single_claimant
      { file := ['a', Char.ofNat 0], line := 3, blockId := (1, 0, 0), threadId := (2, 0, 0),
        fmt := ['m'], args := [[7]] }
      [{ file := ['b', Char.ofNat 0], line := 9, blockId := (0, 0, 0), threadId := (1, 0, 0),
         fmt := ['n'], args := [] }] (by decide)).1⟩

/-- C8 (capacity violation exhibit): at a DTHROW whose source file path has
`FILE_BUFF_LEN` (1024) non-NUL characters, the claiming thread's constructor
copies `strlen(file)` bytes into `file_path`, and `strlen` caps its scan at
`FORMAT_BUFF_LEN` (4096), not at the destination capacity `FILE_BUFF_LEN`:
1025 bytes are written into the 1024-byte field. -/
theorem C8_file_path_capacity_violation :
    (dthrowStep cleanBuffer c8Call).file_path.length = FILE_BUFF_LEN + 1
    ∧ FILE_BUFF_LEN < (dthrowStep cleanBuffer c8Call).file_path.length := by
  have hnul : cstrNulIdx c8File = 1024 := by
    unfold c8File
    rw [cstrNulIdx_replicate_a]
    simp [cstrNulIdx, FILE_BUFF_LEN]
  have hpath : (dthrowStep cleanBuffer c8Call).file_path
      = (DeviceException.construct cleanBuffer c8Call).2.file_path := by
    unfold dthrowStep
    exact (DeviceException.setMessage_frame _ _ _ _).2.1
  have hc : (DeviceException.construct cleanBuffer c8Call).2.file_path
      = c8Call.file.take (DeviceException.strlenDev c8Call.file) := by
    unfold DeviceException.construct
    simp [cleanBuffer]
  have hfile : c8Call.file = c8File := rfl
  have hlen : DeviceException.strlenDev c8File = 1025 := by
    unfold DeviceException.strlenDev
    rw [hnul]
    rfl
  constructor
  · rw [hpath, hc, hfile, hlen, List.length_take]
    simp [c8File, FILE_BUFF_LEN]
  · rw [hpath, hc, hfile, hlen, List.length_take]
    simp [c8File, FILE_BUFF_LEN]

/-- C5: on a message list of length 10, the neighbourhood filter with origin 5
and radius 2 visits exactly bins 3, 4, 6, 7 in increasing relative order,
excluding bin 5; with origin 0 and radius 2 it visits bins 8, 9, 1, 2
(wraparound). In general `begin()` lands on the first in-range neighbour
(relative offset `-radius`), `end()` is the sentinel built from relative offset
`radius`, each step adds 1 to the relative offset (skipping only the excluded
origin), and the absolute bin read is `(origin + relative + L) % L`. -/
theorem C5_neighbourhood_window (f : MsgFilter) (m : FilterMsg) (h1 : 1 ≤ f.radius) :
    MsgFilter.visitedBins { loc := 5, radius := 2, length := 10, combined_hash := 0 }
      = [3, 4, 6, 7]
    ∧ MsgFilter.visitedBins { loc := 0, radius := 2, length := 10, combined_hash := 0 }
      = [8, 9, 1, 2]
    ∧ (MsgFilter.beginMsg f).relative = -(f.radius : Int)
    ∧ MsgFilter.endMsg f = FilterMsg.inc f { relative := (f.radius : Int), index1d := 0 }
    ∧ (m.relative + 1 ≠ 0 → (FilterMsg.inc f m).relative = m.relative + 1)
    ∧ (FilterMsg.inc f m).index1d = arrayBin f.loc (FilterMsg.inc f m).relative f.length
    ∧ (∀ (loc len : Nat) (rel : Int), -(len : Int) ≤ rel →
        (loc : Int) + rel + (len : Int) < 2 ^ 32 →
        arrayBin loc rel len = ((loc : Int) + rel + (len : Int)).toNat % len) := by
  refine ⟨by decide, by decide, ?_, rfl, ?_, rfl, ?_⟩
  · have hne : ¬ (-(f.radius : Int) - 1 + 1 = 0) := by omega
    simp only [MsgFilter.beginMsg, FilterMsg.inc, hne, if_false]
    omega
  · intro hne
    simp only [FilterMsg.inc, hne, if_false]
  · intro loc len rel hge hlt
    have h0 : 0 ≤ (loc : Int) + rel + (len : Int) := by omega
    unfold arrayBin
    rw [Int.emod_eq_of_lt h0 hlt]

/-- Witness for C5 at a concrete filter and message. -/
theorem C5_neighbourhood_window_witness :
    (1 ≤ (2 : Nat))
    ∧ (MsgFilter.beginMsg { loc := 5, radius := 2, length := 10, combined_hash := 0 }).relative
        = -((2 : Nat) : Int)
    ∧ MsgFilter.visitedBins { loc := 5, radius := 2, length := 10, combined_hash := 0 }
        = [3, 4, 6, 7]
    ∧ MsgFilter.visitedBins { loc := 0, radius := 2, length := 10, combined_hash := 0 }
        = [8, 9, 1, 2] :=
  ⟨by decide,
   (C5_neighbourhood_window { loc := 5, radius := 2, length := 10, combined_hash := 0 }
      { relative := 0, index1d := 0 } (by decide)).2.2.1,
   (C5_neighbourhood_window { loc := 5, radius := 2, length := 10, combined_hash := 0 }
      { relative := 0, index1d := 0 } (by decide)).1,
   (C5_neighbourhood_window { loc := 5, radius := 2, length := 10, combined_hash := 0 }
      { relative := 0, index1d := 0 } (by decide)).2.1⟩

/-- C9: `operator()(x, r)` reports an invalid-radius error exactly when
`r == 0` or `r > L` (first conjunct, for every radius); for a valid radius no
error is reported and the returned filter's window consists of exactly `2 * r`
cells: the relative offsets `-r..-1` and `1..r`, centered on the origin and
excluding the origin's relative offset 0, each read at absolute bin
`(origin + relative + L) % L`. -/
theorem C9_radius_validation_and_window (inp : MsgArrayIn) (x r : Nat)
    (h1 : 1 ≤ r) (h2 : r ≤ inp.length) :
    (∀ r2 : Nat, (MsgArray.In.callOp inp x r2).1 = true ↔ (r2 = 0 ∨ r2 > inp.length))
    ∧ (MsgArray.In.callOp inp x r).1 = false
    ∧ (MsgArray.In.callOp inp x r).2.windowBins.length = 2 * r
    ∧ ((0 : Int) ∉ (MsgArray.In.callOp inp x r).2.windowRels)
    ∧ (∀ d : Int, d ∈ (MsgArray.In.callOp inp x r).2.windowRels ↔
        ((-(r : Int) ≤ d ∧ d ≤ -1) ∨ (1 ≤ d ∧ d ≤ (r : Int))))
    ∧ (MsgArray.In.callOp inp x r).2.windowBins
        = ((MsgArray.In.callOp inp x r).2.windowRels).map (fun d => arrayBin x d inp.length) := by
  have hrad : (MsgArray.In.callOp inp x r).2.radius = r := rfl
  have hw := windowRels_eq (MsgArray.In.callOp inp x r).2 (by rw [hrad]; exact h1)
  rw [hrad] at hw
  refine ⟨?_, ?_, ?_, ?_, ?_, rfl⟩
  · intro r2
    simp [MsgArray.In.callOp, decide_eq_true_eq]
  · simp only [MsgArray.In.callOp, decide_eq_false_iff_not]
    omega
  · rw [MsgFilter.windowBins, List.length_map, hw, List.length_append,
      intAsc_length, intAsc_length]
    omega
  · rw [hw]
    simp only [List.mem_append, mem_intAsc]
    omega
  · intro d
    rw [hw]
    simp only [List.mem_append, mem_intAsc]
    omega

/-- Witness for C9 at a concrete list, origin and radius. -/
theorem C9_radius_validation_and_window_witness :
    (1 ≤ (2 : Nat)) ∧ ((2 : Nat) ≤ (⟨0, 10⟩ : MsgArrayIn).length)
    ∧ (MsgArray.In.callOp ⟨0, 10⟩ 5 2).1 = false
    ∧ (MsgArray.In.callOp ⟨0, 10⟩ 5 2).2.windowBins.length = 2 * 2
    ∧ ((0 : Int) ∉ (MsgArray.In.callOp ⟨0, 10⟩ 5 2).2.windowRels) :=
  ⟨by decide, by decide,
   (C9_radius_validation_and_window ⟨0, 10⟩ 5 2 (by decide) (by decide)).2.1,
   (C9_radius_validation_and_window ⟨0, 10⟩ 5 2 (by decide) (by decide)).2.2.1,
   (C9_radius_validation_and_window ⟨0, 10⟩ 5 2 (by decide) (by decide)).2.2.2.1⟩
